import Mathlib

/-!
Verification development for the flight-scanner repository.

This file shallowly embeds the two core source files:
  * `aggregate_flights.py` — datetime normalisation (`parse_datetime`,
    `calculate_arrival`, `calculate_stay_duration`), the itinerary
    combination engine (`find_combinations`), statistics
    (`get_statistics`) and the ranking/uniqueness reduction shared by
    `print_summary` and `save_results`;
  * `build_airport_network.py` — `haversine_distance`,
    `parse_coordinates` and `build_airport_network`.

Modelling conventions:
  * JSON numbers are embedded as `ℚ` (prices) and `ℤ` (durations, day
    counts); geographic arithmetic is over `ℝ`.
  * Optional JSON fields are `Option` values; Python truthiness of a
    field (`if not x`, `a or b`) is modelled by explicit `truthy`
    predicates: a missing value, the empty string, and the number 0 are
    falsy, as in Python.
  * Python strings are Lean `String`s; character-list recursion mirrors
    `str.split` (including the `maxsplit` argument of `split('-', 3)`).
  * `datetime.strptime` is embedded for the four fixed layouts the code
    tries, following CPython's `_strptime` regular expressions: `%Y` is
    exactly four digits, `%m`/`%d`/`%H`/`%M`/`%S` accept one or two
    digits with the usual range alternations (with backtracking), the
    literal `T` is matched case-insensitively, and after the offset
    stripping performed by `parse_datetime` the only reachable `%z`
    match is a literal trailing `Z` (yielding a UTC-aware value).
    Calendar validity (month lengths, leap years, years 1–9999) is
    checked as by the `datetime` constructor.
-/

/-! ### Python truthiness -/

/-- Truthiness of an optional Python string: `None` and `""` are falsy. -/
def truthyS : Option String → Bool
  | none => false
  | some s => !s.isEmpty

/-- Truthiness of an optional Python integer: `None` and `0` are falsy. -/
def truthyZ : Option ℤ → Bool
  | none => false
  | some z => z != 0

/-- Truthiness of an optional Python number: `None` and `0` are falsy. -/
def truthyQ : Option ℚ → Bool
  | none => false
  | some q => q != 0

/-- Python `a or b` on optional strings: `b` when `a` is falsy. -/
def pyOrS (a b : Option String) : Option String :=
  if truthyS a then a else b

/-! ### String helpers (Python `str.split`) -/

/-- Characters of `cs` strictly before the first occurrence of `c`
(Python `s.split(c)[0]`). -/
def takeUntil (c : Char) : List Char → List Char
  | [] => []
  | x :: xs => if x = c then [] else x :: takeUntil c xs

/-- Python `s.split(sep, maxsplit)` on character lists: at most `n`
splits, the remainder (separators included) stays in the last part. -/
def splitAtMost (sep : Char) : ℕ → List Char → List (List Char)
  | _, [] => [[]]
  | 0, cs => [cs]
  | n + 1, c :: cs =>
    if c = sep then [] :: splitAtMost sep n cs
    else
      match splitAtMost sep (n + 1) cs with
      | [] => [[c]]
      | p :: ps => (c :: p) :: ps

/-! ### CPython `strptime` component matchers

Each component matcher returns the candidate `(value, rest)` splits in
the preference order of the CPython `_strptime` regular expression for
that directive; the callers try them with backtracking exactly as the
regex engine does. -/

/-- Numeric value of a decimal digit character, if any. -/
def digitVal (c : Char) : Option ℕ :=
  if '0' ≤ c ∧ c ≤ '9' then some (c.toNat - '0'.toNat) else none

/-- Directive `%Y`: exactly four digits. -/
def parseY : List Char → Option (ℕ × List Char)
  | a :: b :: c :: d :: rest =>
    match digitVal a, digitVal b, digitVal c, digitVal d with
    | some w, some x, some y, some z => some (((w * 10 + x) * 10 + y) * 10 + z, rest)
    | _, _, _, _ => none
  | _ => none

/-- Directive `%m`: regex `1[0-2]|0[1-9]|[1-9]`, candidates in order. -/
def candsM (cs : List Char) : List (ℕ × List Char) :=
  (match cs with
   | a :: b :: rest =>
     match digitVal a, digitVal b with
     | some 1, some db => if db ≤ 2 then [(10 + db, rest)] else []
     | some 0, some db => if 1 ≤ db then [(db, rest)] else []
     | _, _ => []
   | _ => []) ++
  (match cs with
   | a :: rest =>
     match digitVal a with
     | some da => if 1 ≤ da then [(da, rest)] else []
     | none => []
   | [] => [])

/-- Directive `%d`: regex `3[01]|[12]\d|0[1-9]|[1-9]`, candidates in order. -/
def candsD (cs : List Char) : List (ℕ × List Char) :=
  (match cs with
   | a :: b :: rest =>
     match digitVal a, digitVal b with
     | some 3, some db => if db ≤ 1 then [(30 + db, rest)] else []
     | some 1, some db => [(10 + db, rest)]
     | some 2, some db => [(20 + db, rest)]
     | some 0, some db => if 1 ≤ db then [(db, rest)] else []
     | _, _ => []
   | _ => []) ++
  (match cs with
   | a :: rest =>
     match digitVal a with
     | some da => if 1 ≤ da then [(da, rest)] else []
     | none => []
   | [] => [])

/-- Directive `%H`: regex `2[0-3]|[0-1]\d|\d`, candidates in order. -/
def candsH (cs : List Char) : List (ℕ × List Char) :=
  (match cs with
   | a :: b :: rest =>
     match digitVal a, digitVal b with
     | some 2, some db => if db ≤ 3 then [(20 + db, rest)] else []
     | some 0, some db => [(db, rest)]
     | some 1, some db => [(10 + db, rest)]
     | _, _ => []
   | _ => []) ++
  (match cs with
   | a :: rest =>
     match digitVal a with
     | some da => [(da, rest)]
     | none => []
   | [] => [])

/-- Directives `%M` and `%S`: regex `[0-5]\d|\d`, candidates in order. -/
def candsMS (cs : List Char) : List (ℕ × List Char) :=
  (match cs with
   | a :: b :: rest =>
     match digitVal a, digitVal b with
     | some da, some db => if da ≤ 5 then [(da * 10 + db, rest)] else []
     | _, _ => []
   | _ => []) ++
  (match cs with
   | a :: rest =>
     match digitVal a with
     | some da => [(da, rest)]
     | none => []
   | [] => [])

/-- Literal `T` in a format, matched case-insensitively as CPython
compiles format strings with `re.IGNORECASE`. -/
def tSep : List Char → Option (List Char)
  | c :: rest => if c = 'T' ∨ c = 't' then some rest else none
  | [] => none

/-- A literal one-character separator. -/
def litChar (ch : Char) : List Char → Option (List Char)
  | c :: rest => if c = ch then some rest else none
  | [] => none

/-- Match `%H:%M:%S` followed by end of input (`zReq = false`) or by a
literal `Z` and end of input (`zReq = true`, the only reachable `%z`
form after `parse_datetime`'s offset stripping). -/
def matchTimePart (zReq : Bool) (cs : List Char) : Option (ℕ × ℕ × ℕ) :=
  (candsH cs).findSome? fun hc =>
    (litChar ':' hc.2).bind fun r2 =>
    (candsMS r2).findSome? fun mc =>
      (litChar ':' mc.2).bind fun r4 =>
      (candsMS r4).findSome? fun sc =>
        if (zReq ∧ sc.2 = ['Z']) ∨ (¬zReq ∧ sc.2 = []) then
          some (hc.1, mc.1, sc.1)
        else none

/-- Match `%Y-%m-%d` followed by `sepM` and a time part, to end of input. -/
def matchDateTime (sepM : List Char → Option (List Char)) (zReq : Bool)
    (cs : List Char) : Option (ℕ × ℕ × ℕ × ℕ × ℕ × ℕ) :=
  (parseY cs).bind fun yc =>
  (litChar '-' yc.2).bind fun r1 =>
  (candsM r1).findSome? fun mc =>
    (litChar '-' mc.2).bind fun r2 =>
    (candsD r2).findSome? fun dc =>
      (sepM dc.2).bind fun r3 =>
      (matchTimePart zReq r3).map fun t => (yc.1, mc.1, dc.1, t.1, t.2.1, t.2.2)

/-- Match `%Y-%m-%d` to end of input. -/
def matchDateOnly (cs : List Char) : Option (ℕ × ℕ × ℕ) :=
  (parseY cs).bind fun yc =>
  (litChar '-' yc.2).bind fun r1 =>
  (candsM r1).findSome? fun mc =>
    (litChar '-' mc.2).bind fun r2 =>
    (candsD r2).findSome? fun dc =>
      if dc.2 = ([] : List Char) then some (yc.1, mc.1, dc.1) else none

/-! ### Calendar validity (the `datetime` constructor's checks) -/

/-- Gregorian leap-year rule. -/
def isLeapYear (y : ℕ) : Bool := y % 4 = 0 ∧ (y % 100 ≠ 0 ∨ y % 400 = 0)

/-- Length of a month. -/
def daysInMonth (y m : ℕ) : ℕ :=
  if m = 2 then (if isLeapYear y then 29 else 28)
  else if m = 4 ∨ m = 6 ∨ m = 9 ∨ m = 11 then 30 else 31

/-- Validity as checked by `datetime(year, month, day, ...)`: years
1–9999, months 1–12, days within the month. -/
def validYMD (y m d : ℕ) : Bool :=
  1 ≤ y ∧ y ≤ 9999 ∧ 1 ≤ m ∧ m ≤ 12 ∧ 1 ≤ d ∧ d ≤ daysInMonth y m

/-- A parsed Python `datetime` at second granularity.  `utc` records
whether the value is timezone-aware; the only reachable aware case in
this code base is UTC (a trailing `Z` matched by `%z`), so the offset is
always zero and need not be stored. -/
structure PyDateTime where
  year : ℕ
  month : ℕ
  day : ℕ
  hour : ℕ
  minute : ℕ
  second : ℕ
  utc : Bool
deriving DecidableEq

/-! ### `parse_datetime` -/

/-- The timezone-stripping preprocessing of `parse_datetime`: take the
part before the first `+`, split it on `-` with `maxsplit=3`, and if
that yields four parts re-join the first three (dropping a trailing
negative-offset suffix); otherwise keep the part before the first `+`. -/
def cleanDateStr (s : String) : List Char :=
  let noPlus := takeUntil '+' s.data
  let parts := splitAtMost '-' 3 noPlus
  if parts.length = 4 then List.intercalate ['-'] (parts.take 3) else noPlus

/-- Try one timed layout on the cleaned string: regex match followed by
the constructor's calendar check.  Either failure makes `strptime`
raise, so the caller falls through to the next layout. -/
def tryTimedFormat (sepM : List Char → Option (List Char)) (zReq : Bool)
    (cs : List Char) : Option PyDateTime :=
  (matchDateTime sepM zReq cs).bind fun v =>
    match v with
    | (y, m, d, hh, mm, ss) =>
      if validYMD y m d ∧ hh ≤ 23 ∧ mm ≤ 59 ∧ ss ≤ 59 then
        some ⟨y, m, d, hh, mm, ss, zReq⟩
      else none

/-- Try the date-only layout `%Y-%m-%d`. -/
def tryDateFormat (cs : List Char) : Option PyDateTime :=
  (matchDateOnly cs).bind fun v =>
    match v with
    | (y, m, d) =>
      if validYMD y m d then some ⟨y, m, d, 0, 0, 0, false⟩ else none

/-- `parse_datetime(date_str)`: clean the string once, then try the four
layouts `"%Y-%m-%dT%H:%M:%S%z"`, `"%Y-%m-%dT%H:%M:%S"`,
`"%Y-%m-%d %H:%M:%S"`, `"%Y-%m-%d"` in order; `none` models the final
`raise ValueError`. -/
def parse_datetime (s : String) : Option PyDateTime :=
  let cs := cleanDateStr s
  (tryTimedFormat tSep true cs).orElse fun _ =>
  (tryTimedFormat tSep false cs).orElse fun _ =>
  (tryTimedFormat (litChar ' ') false cs).orElse fun _ =>
  tryDateFormat cs

/-! ### `datetime` arithmetic -/

/-- Days from 1970-01-01 to the given civil date (proleptic Gregorian);
Hinnant's `days_from_civil` algorithm, as used by Python's ordinal
arithmetic. -/
def daysFromCivil (y m d : ℤ) : ℤ :=
  let y' := if m ≤ 2 then y - 1 else y
  let era := Int.fdiv y' 400
  let yoe := y' - era * 400
  let mp := Int.fmod (m + 9) 12
  let doy := Int.fdiv (153 * mp + 2) 5 + d - 1
  let doe := yoe * 365 + Int.fdiv yoe 4 - Int.fdiv yoe 100 + doy
  era * 146097 + doe - 719468

/-- Inverse of `daysFromCivil` (Hinnant's `civil_from_days`). -/
def civilFromDays (z0 : ℤ) : ℤ × ℤ × ℤ :=
  let z := z0 + 719468
  let era := Int.fdiv z 146097
  let doe := z - era * 146097
  let yoe := Int.fdiv (doe - Int.fdiv doe 1460 + Int.fdiv doe 36524 - Int.fdiv doe 146096) 365
  let y := yoe + era * 400
  let doy := doe - (365 * yoe + Int.fdiv yoe 4 - Int.fdiv yoe 100)
  let mp := Int.fdiv (5 * doy + 2) 153
  let d := doy - Int.fdiv (153 * mp + 2) 5 + 1
  let m := mp + (if mp < 10 then 3 else -9)
  (if m ≤ 2 then y + 1 else y, m, d)

/-- Seconds from the epoch to a `PyDateTime` (offsets are always zero). -/
def dtSeconds (dt : PyDateTime) : ℤ :=
  86400 * daysFromCivil (dt.year : ℤ) (dt.month : ℤ) (dt.day : ℤ)
    + 3600 * (dt.hour : ℤ) + 60 * (dt.minute : ℤ) + (dt.second : ℤ)

/-- Seconds of `datetime.min = 0001-01-01 00:00:00`. -/
def minDatetimeSec : ℤ := 86400 * daysFromCivil 1 1 1

/-- Seconds of `datetime.max` (at second granularity), `9999-12-31 23:59:59`. -/
def maxDatetimeSec : ℤ := 86400 * daysFromCivil 9999 12 31 + 86399

/-- Rebuild a `PyDateTime` from epoch seconds. -/
def dtOfSeconds (sec : ℤ) (utc : Bool) : PyDateTime :=
  let days := Int.fdiv sec 86400
  let rem := (Int.fmod sec 86400).toNat
  let c := civilFromDays days
  ⟨c.1.toNat, c.2.1.toNat, c.2.2.toNat, rem / 3600, rem % 3600 / 60, rem % 60, utc⟩

/-- Zero-pad the decimal rendering of `n` to width `w`. -/
def padNum (n : ℕ) (w : ℕ) : String :=
  let s := toString n
  ⟨List.replicate (w - s.length) '0' ++ s.data⟩

/-- Python `datetime.isoformat()` at second granularity; aware (UTC)
values carry the `+00:00` suffix. -/
def isoformat (dt : PyDateTime) : String :=
  padNum dt.year 4 ++ "-" ++ padNum dt.month 2 ++ "-" ++ padNum dt.day 2 ++ "T"
    ++ padNum dt.hour 2 ++ ":" ++ padNum dt.minute 2 ++ ":" ++ padNum dt.second 2
    ++ (if dt.utc then "+00:00" else "")

/-! ### `calculate_arrival` and `calculate_stay_duration` -/

/-- `calculate_arrival(departure_at, duration)`: parse the departure,
add `duration` minutes and render `isoformat()`; on any failure (parse
error, or year overflow in the addition) return the original string
unchanged. -/
def calculate_arrival (departure_at : String) (duration : ℤ) : String :=
  match parse_datetime departure_at with
  | none => departure_at
  | some dt =>
    let sec := dtSeconds dt + 60 * duration
    if sec < minDatetimeSec ∨ maxDatetimeSec < sec then departure_at
    else isoformat (dtOfSeconds sec dt.utc)

/-- Python `s.split('T')[0] if 'T' in s else s`. -/
def dateOnlyOf (s : String) : List Char := takeUntil 'T' s.data

/-- `strptime(s, "%Y-%m-%d")` on a raw character list (no cleaning). -/
def parseDateOnlyStr (cs : List Char) : Option (ℕ × ℕ × ℕ) :=
  (matchDateOnly cs).bind fun v =>
    match v with
    | (y, m, d) => if validYMD y m d then some (y, m, d) else none

/-- The `except` branch of `calculate_stay_duration`: whole-day
difference of the date-only leading parts, `0` if either fails to parse. -/
def stayFallback (leg1_arrival leg2_departure : String) : ℤ :=
  match parseDateOnlyStr (dateOnlyOf leg1_arrival),
        parseDateOnlyStr (dateOnlyOf leg2_departure) with
  | some a, some d =>
    daysFromCivil (d.1 : ℤ) (d.2.1 : ℤ) (d.2.2 : ℤ)
      - daysFromCivil (a.1 : ℤ) (a.2.1 : ℤ) (a.2.2 : ℤ)
  | _, _ => 0

/-- `calculate_stay_duration(leg1_arrival, leg2_departure)`: parse both
instants and take `(departure - arrival).days` (floor of the difference
in whole days); subtracting an aware from a naive datetime (or vice
versa) raises `TypeError`, so that case also lands in the fallback. -/
def calculate_stay_duration (leg1_arrival leg2_departure : String) : ℤ :=
  match parse_datetime leg1_arrival, parse_datetime leg2_departure with
  | some a, some d =>
    if a.utc = d.utc then Int.fdiv (dtSeconds d - dtSeconds a) 86400
    else stayFallback leg1_arrival leg2_departure
  | _, _ => stayFallback leg1_arrival leg2_departure

/-! ### Flight offers and the combination engine (`find_combinations`) -/

/-- One collected flight offer (the JSON record shape consumed by
`find_combinations`); every field is optional. -/
structure Flight where
  origin : Option String := none
  destination : Option String := none
  search_origin : Option String := none
  search_destination : Option String := none
  departure_at : Option String := none
  arrival_at : Option String := none
  duration : Option ℤ := none
  price : Option ℚ := none
  value : Option ℚ := none
  airline : Option String := none
  flight_number : Option String := none
  link : Option String := none
deriving DecidableEq

/-- The top-level collected dataset (`data.get("leg1_flights", [])` and
`data.get("leg2_flights", [])`). -/
structure FlightData where
  leg1_flights : List Flight := []
  leg2_flights : List Flight := []
deriving DecidableEq

/-- One serialized leg of an emitted combination. -/
structure LegOut where
  origin : Option String
  destination : Option String
  departure_at : Option String
  arrival_at : String
  price : ℚ
  airline : Option String
  flight_number : Option String
  link : Option String
  duration : Option ℤ
deriving DecidableEq

/-- One emitted combination (itinerary). -/
structure Combination where
  total_price : ℚ
  stay_days : ℤ
  intermediate_city : Option String
  leg1 : LegOut
  leg2 : LegOut
deriving DecidableEq

/-- The price expression `flight.get("price") or flight.get("value", 0)`:
a present, nonzero `price` wins; otherwise the `value` field, defaulting
to `0`. -/
def priceExpr (f : Flight) : ℚ :=
  if truthyQ f.price then f.price.getD 0 else f.value.getD 0

/-- Leg-1 arrival determination: the offer's own `arrival_at` if truthy,
else derived from truthy `departure_at` plus truthy `duration`, else the
offer is unusable (`none`). -/
def leg1Arrival (f : Flight) : Option String :=
  if truthyS f.arrival_at then f.arrival_at
  else if truthyS f.departure_at && truthyZ f.duration then
    some (calculate_arrival (f.departure_at.getD "") (f.duration.getD 0))
  else none

/-- Leg-2 arrival determination: as for leg 1 but falling back to the
departure string itself as a last resort. -/
def leg2Arrival (f : Flight) (departure_at : String) : String :=
  if truthyS f.arrival_at then f.arrival_at.getD ""
  else if truthyS f.departure_at && truthyZ f.duration then
    calculate_arrival (f.departure_at.getD "") (f.duration.getD 0)
  else departure_at

/-- The departure-date window filter applied to each leg list when
either bound is truthy: keep offers with a truthy `departure_at` whose
date part (before `T`) is within the bounds (string comparison). -/
def filterByDate (dFrom dTo : Option String) (flights : List Flight) : List Flight :=
  if truthyS dFrom || truthyS dTo then
    flights.filter fun f =>
      truthyS f.departure_at &&
      (let depDate : String := ⟨takeUntil 'T' (f.departure_at.getD "").data⟩
       !(truthyS dFrom && decide (depDate < dFrom.getD "")) &&
       !(truthyS dTo && decide (dTo.getD "" < depDate)))
  else flights

/-- The emitted record for one matched pair (the `combination = {...}`
literal in `find_combinations`). -/
def mkCombination (f1 : Flight) (city : Option String) (arr : String)
    (f2 : Flight) (dep : String) (stay : ℤ) : Combination :=
  { total_price := priceExpr f1 + priceExpr f2
    stay_days := stay
    intermediate_city := city
    leg1 :=
      { origin := pyOrS f1.origin f1.search_origin
        destination := city
        departure_at := f1.departure_at
        arrival_at := arr
        price := priceExpr f1
        airline := f1.airline
        flight_number := f1.flight_number
        link := f1.link
        duration := f1.duration }
    leg2 :=
      { origin := city
        destination := pyOrS f2.destination f2.search_destination
        departure_at := some dep
        arrival_at := leg2Arrival f2 dep
        price := priceExpr f2
        airline := f2.airline
        flight_number := f2.flight_number
        link := f2.link
        duration := f2.duration } }

/-- The inner loop body of `find_combinations`: for a fixed leg-1 offer
with intermediate city `city` and arrival `arr`, decide whether a leg-2
offer produces a combination. -/
def innerCombine (min_stay max_stay : ℤ) (f1 : Flight) (city : Option String)
    (arr : String) (f2 : Flight) : Option Combination :=
  if pyOrS f2.origin f2.search_origin ≠ city then none
  else if ¬ truthyS f2.departure_at then none
  else if calculate_stay_duration arr (f2.departure_at.getD "") < min_stay ∨
      max_stay < calculate_stay_duration arr (f2.departure_at.getD "") then none
  else some (mkCombination f1 city arr f2 (f2.departure_at.getD "")
    (calculate_stay_duration arr (f2.departure_at.getD "")))

/-- The outer loop body of `find_combinations`: one leg-1 offer against
the (already date-filtered) leg-2 list. -/
def outerCombine (min_stay max_stay : ℤ) (via_city : Option String)
    (l2 : List Flight) (f1 : Flight) : List Combination :=
  if truthyS via_city ∧ pyOrS f1.destination f1.search_destination ≠ via_city then []
  else
    match leg1Arrival f1 with
    | none => []
    | some arr =>
      l2.filterMap
        (innerCombine min_stay max_stay f1 (pyOrS f1.destination f1.search_destination) arr)

/-- `find_combinations(data, min_stay, max_stay, leg1_depart_from,
leg1_depart_to, leg2_depart_from, leg2_depart_to, via_city)`. -/
def find_combinations (data : FlightData) (min_stay max_stay : ℤ)
    (leg1_depart_from leg1_depart_to leg2_depart_from leg2_depart_to
      via_city : Option String) : List Combination :=
  let l1 := filterByDate leg1_depart_from leg1_depart_to data.leg1_flights
  let l2 := filterByDate leg2_depart_from leg2_depart_to data.leg2_flights
  l1.flatMap (outerCombine min_stay max_stay via_city l2)

/-! ### Statistics (`get_statistics`) -/

/-- Fold-based minimum of a price list (Python `min` on a nonempty
list); the `0` default is never used by callers. -/
def minOfList : List ℚ → ℚ
  | [] => 0
  | x :: xs => xs.foldl min x

/-- Fold-based maximum of a price list. -/
def maxOfList : List ℚ → ℚ
  | [] => 0
  | x :: xs => xs.foldl max x

/-- Rounding to two decimal places.  Python's `round(x, 2)` on floats
rounds the scaled binary value half-to-even; over `ℚ` this is modelled
as nearest-integer rounding of `100 * x` (the two can differ only on
exact decimal ties, and no claim in this development depends on the tie
direction). -/
def round2 (q : ℚ) : ℚ := (round (100 * q) : ℤ) / 100

/-- Per-intermediate-city statistics entry. -/
structure CityStats where
  count : ℕ
  min_price : ℚ
  avg_price : ℚ
deriving DecidableEq

/-- The result of `get_statistics`.  `by_intermediate_city` is `none`
exactly when the key is absent from the returned dict (the empty-input
branch); the Python dict is modelled as an association list ordered by
first occurrence of each city. -/
structure Stats where
  total_combinations : ℕ
  min_price : ℚ
  max_price : ℚ
  avg_price : ℚ
  median_price : ℚ
  by_intermediate_city : Option (List (Option String × CityStats))
deriving DecidableEq

/-- Distinct intermediate cities in order of first occurrence (the
iteration order of the `defaultdict`). -/
def firstCities (seen : List (Option String)) : List Combination → List (Option String)
  | [] => []
  | c :: rest =>
    if c.intermediate_city ∈ seen then firstCities seen rest
    else c.intermediate_city :: firstCities (c.intermediate_city :: seen) rest

/-- `get_statistics(combinations)`. -/
def get_statistics (combos : List Combination) : Stats :=
  if combos = [] then
    { total_combinations := 0, min_price := 0, max_price := 0, avg_price := 0
      median_price := 0, by_intermediate_city := none }
  else
    let prices := (combos.map (·.total_price)).insertionSort (· ≤ ·)
    let byCity := (firstCities [] combos).map fun city =>
      let ps := (combos.filter fun c => c.intermediate_city = city).map (·.total_price)
      (city, { count := ps.length, min_price := minOfList ps
               avg_price := round2 (ps.sum / (ps.length : ℚ)) : CityStats })
    { total_combinations := combos.length
      min_price := minOfList prices
      max_price := maxOfList prices
      avg_price := round2 (prices.sum / (prices.length : ℚ))
      median_price := prices.getD (prices.length / 2) 0
      by_intermediate_city := some byCity }

/-! ### Ranking and per-city uniqueness (`print_summary` / `save_results`) -/

/-- `sorted(combinations, key=lambda x: x["total_price"])`: Python's
`sorted` is an ascending stable sort, modelled by insertion sort (any
two stable ascending-by-key sorts agree). -/
def sortCombinations (combos : List Combination) : List Combination :=
  combos.insertionSort fun a b => a.total_price ≤ b.total_price

/-- The `unique_cities` reduction: walk the sorted list keeping the
first combination seen for each intermediate city. -/
def uniqueCitiesGo (seen : List (Option String)) : List Combination → List Combination
  | [] => []
  | c :: rest =>
    if c.intermediate_city ∈ seen then uniqueCitiesGo seen rest
    else c :: uniqueCitiesGo (c.intermediate_city :: seen) rest

/-- The ranking step shared verbatim by `print_summary` and
`save_results`: sort ascending by `total_price`, then, if
`unique_cities`, keep the first (cheapest) combination per city.
`save_results` persists this list in full; `print_summary` additionally
truncates it to `top_n` for display. -/
def rankCombinations (combos : List Combination) (unique_cities : Bool) :
    List Combination :=
  let s := sortCombinations combos
  if unique_cities then uniqueCitiesGo [] s else s

/-- The list `print_summary` displays: `sorted_combinations[:top_n]`. -/
def topCombinations (combos : List Combination) (unique_cities : Bool)
    (top_n : ℕ) : List Combination :=
  (rankCombinations combos unique_cities).take top_n

/-! ### Airport network (`build_airport_network.py`) -/

/-- A raw airport record from the dataset. -/
structure Airport where
  iata_code : Option String := none
  name : Option String := none
  municipality : Option String := none
  iso_country : Option String := none
  coordinates : Option String := none
deriving DecidableEq

/-- Python `str.strip()`. -/
def stripWS (cs : List Char) : List Char :=
  ((cs.dropWhile Char.isWhitespace).reverse.dropWhile Char.isWhitespace).reverse

/-- Python `float(s)` on a plain decimal numeral: optional sign, digits
with an optional fractional part (at least one digit overall).  The
dataset's coordinate strings use this form; exotic accepted spellings of
`float` (exponents, `inf`, `nan`) are not modelled — every claim using
coordinate parsing compares the code only against this same predicate. -/
def parseDecimal (cs0 : List Char) : Option ℚ :=
  let signed : Bool × List Char :=
    match cs0 with
    | '-' :: rest => (true, rest)
    | '+' :: rest => (false, rest)
    | _ => (false, cs0)
  let intPart := signed.2.takeWhile fun c => (digitVal c).isSome
  let afterInt := signed.2.dropWhile fun c => (digitVal c).isSome
  let fracAndRest : Option (List Char × List Char) :=
    match afterInt with
    | '.' :: rest => some (rest.takeWhile (fun c => (digitVal c).isSome),
                           rest.dropWhile (fun c => (digitVal c).isSome))
    | rest => some ([], rest)
  fracAndRest.bind fun fr =>
    if fr.2 ≠ ([] : List Char) ∨ (intPart = ([] : List Char) ∧ fr.1 = ([] : List Char)) then
      none
    else
      let digits := intPart ++ fr.1
      let n : ℕ := digits.foldl (fun acc c => acc * 10 + (digitVal c).getD 0) 0
      let mag : ℚ := (n : ℚ) / ((10 : ℚ) ^ fr.1.length)
      some (if signed.1 then -mag else mag)

/-- Python `str.split(sep)` without `maxsplit` (every separator splits). -/
def splitAll (sep : Char) : List Char → List (List Char)
  | [] => [[]]
  | c :: cs =>
    if c = sep then [] :: splitAll sep cs
    else
      match splitAll sep cs with
      | [] => [[c]]
      | p :: ps => (c :: p) :: ps

/-- `parse_coordinates(coord_str)`: split on `,`, `float()` the stripped
first two parts; any failure (fewer than two parts, non-numeric text)
yields `none` (the Python `(None, None)`). -/
def parse_coordinates (coord_str : String) : Option (ℚ × ℚ) :=
  match splitAll ',' coord_str.data with
  | p0 :: p1 :: _ =>
    (parseDecimal (stripWS p0)).bind fun lat =>
    (parseDecimal (stripWS p1)).map fun lon => (lat, lon)
  | _ => none

/-- The per-airport information retained by the preprocessing loop of
`build_airport_network` (the code's `airport_coords` and `airport_info`
dicts share their keys; they are merged into one association list). -/
structure AirportEntry where
  lat : ℚ
  lon : ℚ
  name : String
  municipality : String
  country : String
  coordinates : String
deriving DecidableEq

/-- Python dict insertion: overwrite in place if the key exists, else
append. -/
def dictInsert {β : Type} (k : String) (v : β) : List (String × β) → List (String × β)
  | [] => [(k, v)]
  | (k', v') :: rest =>
    if k' = k then (k, v) :: rest else (k', v') :: dictInsert k v rest

/-- One iteration of the preprocessing loop of `build_airport_network`:
keep an airport with a truthy `iata_code` whose coordinate string
parses; a later record with the same code overwrites an earlier one. -/
def entriesStep (acc : List (String × AirportEntry)) (a : Airport) :
    List (String × AirportEntry) :=
  if truthyS a.iata_code then
    match parse_coordinates (a.coordinates.getD "") with
    | some ll =>
      dictInsert (a.iata_code.getD "")
        { lat := ll.1, lon := ll.2, name := a.name.getD ""
          municipality := a.municipality.getD ""
          country := a.iso_country.getD ""
          coordinates := a.coordinates.getD "" } acc
    | none => acc
  else acc

/-- The preprocessing loop (the code's `airport_coords`/`airport_info`
construction). -/
def airportEntriesOf (airports : List Airport) : List (String × AirportEntry) :=
  airports.foldl entriesStep []

/-- `haversine_distance(lat1, lon1, lat2, lon2)` over exact reals
(`math.radians(x)` is `x * (pi / 180)`). -/
noncomputable def haversine_distance (lat1 lon1 lat2 lon2 : ℝ) : ℝ :=
  let R : ℝ := 6371
  let lat1_rad := lat1 * (Real.pi / 180)
  let lon1_rad := lon1 * (Real.pi / 180)
  let lat2_rad := lat2 * (Real.pi / 180)
  let lon2_rad := lon2 * (Real.pi / 180)
  let dlat := lat2_rad - lat1_rad
  let dlon := lon2_rad - lon1_rad
  let a := Real.sin (dlat / 2) ^ 2
    + Real.cos lat1_rad * Real.cos lat2_rad * Real.sin (dlon / 2) ^ 2
  let c := 2 * Real.arcsin (Real.sqrt a)
  R * c

/-- `round(x, 2)` over the reals (same modelling note as `round2`). -/
noncomputable def round2R (x : ℝ) : ℝ := ((round (100 * x) : ℤ) : ℝ) / 100

/-- One entry of a `nearby_airports` list. -/
structure NeighborEntry where
  iata : String
  distance_km : ℝ

/-- One value of the resulting network mapping. -/
structure NetworkEntry where
  name : String
  municipality : String
  country : String
  coordinates : String
  nearby_airports : List NeighborEntry

/-- `build_airport_network(airports, max_distance_km)`: for each kept
airport, collect every other kept airport within `max_distance_km`
(rounded to two decimals) and sort the list ascending by distance
(`list.sort` is stable, so ties keep dict iteration order). -/
noncomputable def build_airport_network (airports : List Airport)
    (max_distance_km : ℝ) : List (String × NetworkEntry) :=
  let entries := airportEntriesOf airports
  entries.map fun p =>
    let nearby := entries.filterMap fun q =>
      if p.1 = q.1 then none
      else
        let distance := haversine_distance (p.2.lat : ℝ) (p.2.lon : ℝ) (q.2.lat : ℝ) (q.2.lon : ℝ)
        if distance ≤ max_distance_km then
          some { iata := q.1, distance_km := round2R distance : NeighborEntry }
        else none
    let sorted := nearby.insertionSort fun x y => x.distance_km ≤ y.distance_km
    (p.1,
      { name := p.2.name, municipality := p.2.municipality, country := p.2.country
        coordinates := p.2.coordinates, nearby_airports := sorted })

/-! ## Supporting lemmas: membership in `find_combinations` -/

theorem mem_filterByDate {dFrom dTo : Option String} {l : List Flight} {f : Flight}
    (h : f ∈ filterByDate dFrom dTo l) : f ∈ l := by
  unfold filterByDate at h
  split_ifs at h
  · exact (List.mem_filter.1 h).1
  · exact h

theorem innerCombine_eq_some {mn mx : ℤ} {f1 : Flight} {city : Option String}
    {arr : String} {f2 : Flight} {c : Combination} :
    innerCombine mn mx f1 city arr f2 = some c ↔
      pyOrS f2.origin f2.search_origin = city ∧ truthyS f2.departure_at = true ∧
      mn ≤ calculate_stay_duration arr (f2.departure_at.getD "") ∧
      calculate_stay_duration arr (f2.departure_at.getD "") ≤ mx ∧
      c = mkCombination f1 city arr f2 (f2.departure_at.getD "")
            (calculate_stay_duration arr (f2.departure_at.getD "")) := by
  unfold innerCombine
  by_cases h1 : pyOrS f2.origin f2.search_origin ≠ city
  · rw [if_pos h1]
    simp only [false_iff, reduceCtorEq]
    rintro ⟨heq, -⟩
    exact h1 heq
  · rw [if_neg h1]
    by_cases h2 : truthyS f2.departure_at = true
    · rw [if_neg (not_not_intro h2)]
      by_cases h3 : calculate_stay_duration arr (f2.departure_at.getD "") < mn ∨
          mx < calculate_stay_duration arr (f2.departure_at.getD "")
      · rw [if_pos h3]
        simp only [false_iff, reduceCtorEq]
        rintro ⟨-, -, hge, hle, -⟩
        rcases h3 with h | h <;> omega
      · rw [if_neg h3]
        push_neg at h1 h3
        simp only [Option.some_inj]
        constructor
        · intro h
          exact ⟨h1, h2, h3.1, h3.2, h.symm⟩
        · rintro ⟨-, -, -, -, rfl⟩
          rfl
    · rw [if_pos h2]
      simp only [false_iff, reduceCtorEq]
      rintro ⟨-, htr, -⟩
      exact h2 htr

theorem mem_outerCombine {mn mx : ℤ} {via : Option String} {l2 : List Flight}
    {f1 : Flight} {c : Combination} :
    c ∈ outerCombine mn mx via l2 f1 ↔
      ¬(truthyS via = true ∧ pyOrS f1.destination f1.search_destination ≠ via) ∧
      ∃ arr, leg1Arrival f1 = some arr ∧
        ∃ f2 ∈ l2,
          innerCombine mn mx f1 (pyOrS f1.destination f1.search_destination) arr f2 = some c := by
  unfold outerCombine
  split_ifs with h1
  · simp [h1]
  · cases harr : leg1Arrival f1 with
    | none => simp [h1, harr]
    | some arr =>
      simp only [List.mem_filterMap, h1, not_false_iff, true_and, harr,
        Option.some_inj]
      constructor
      · rintro ⟨f2, hf2, hi⟩
        exact ⟨arr, rfl, f2, hf2, hi⟩
      · rintro ⟨a, rfl, f2, hf2, hi⟩
        exact ⟨f2, hf2, hi⟩

theorem mem_find_combinations {data : FlightData} {mn mx : ℤ}
    {l1f l1t l2f l2t via : Option String} {c : Combination} :
    c ∈ find_combinations data mn mx l1f l1t l2f l2t via ↔
      ∃ f1 ∈ filterByDate l1f l1t data.leg1_flights,
        c ∈ outerCombine mn mx via (filterByDate l2f l2t data.leg2_flights) f1 := by
  unfold find_combinations
  exact List.mem_flatMap

/-! ## Claim C1 -/

/-- C1: for every itinerary emitted by `find_combinations` with
parameters `min_stay` and `max_stay`, the itinerary's `stay_days` field
satisfies `min_stay ≤ stay_days ≤ max_stay`, both bounds inclusive. -/
theorem C1_stay_days_within_bounds (data : FlightData) (min_stay max_stay : ℤ)
    (l1f l1t l2f l2t via : Option String) (c : Combination)
    (hc : c ∈ find_combinations data min_stay max_stay l1f l1t l2f l2t via) :
    min_stay ≤ c.stay_days ∧ c.stay_days ≤ max_stay := by
  obtain ⟨f1, -, hout⟩ := mem_find_combinations.1 hc
  obtain ⟨-, arr, -, f2, -, hi⟩ := mem_outerCombine.1 hout
  obtain ⟨-, -, hge, hle, rfl⟩ := innerCombine_eq_some.1 hi
  exact ⟨hge, hle⟩

/-- A concrete leg-1 offer used by witnesses. -/
def wLeg1 : Flight where
  origin := some "MOW"
  destination := some "IST"
  departure_at := some "2026-02-15T10:00:00"
  arrival_at := some "2026-02-15T14:00:00"
  price := some 100

/-- A concrete leg-2 offer used by witnesses. -/
def wLeg2 : Flight where
  origin := some "IST"
  destination := some "BKK"
  departure_at := some "2026-02-18T09:00:00"
  price := some 200

/-- A concrete dataset used by witnesses. -/
def wData : FlightData where
  leg1_flights := [wLeg1]
  leg2_flights := [wLeg2]

/-- The single combination `find_combinations` emits from `wData`:
intermediate city IST, a stay of two whole days, total price 300. -/
def wCombo : Combination :=
  mkCombination wLeg1 (pyOrS wLeg1.destination wLeg1.search_destination)
    "2026-02-15T14:00:00" wLeg2 "2026-02-18T09:00:00"
    (calculate_stay_duration "2026-02-15T14:00:00" "2026-02-18T09:00:00")

theorem wCombo_mem :
    wCombo ∈ find_combinations wData 1 7 none none none none (some "IST") := by
  apply mem_find_combinations.2
  refine ⟨wLeg1, by decide, mem_outerCombine.2 ?_⟩
  refine ⟨by decide, "2026-02-15T14:00:00", by decide, wLeg2, by decide,
    innerCombine_eq_some.2 ⟨by decide, by decide, by decide, by decide, rfl⟩⟩

/-- Witness for C1 at a concrete input. -/
theorem C1_witness : 1 ≤ wCombo.stay_days ∧ wCombo.stay_days ≤ 7 :=
  C1_stay_days_within_bounds wData 1 7 none none none none (some "IST") wCombo wCombo_mem

/-! ## Claim C2 -/

/-- C2: every emitted itinerary's serialized `leg1.destination`,
`leg2.origin` and `intermediate_city` are all equal, and when the
`via_city` parameter is supplied (a non-empty city code) every emitted
itinerary's `intermediate_city` equals it. -/
theorem C2_intermediate_city_invariant (data : FlightData) (min_stay max_stay : ℤ)
    (l1f l1t l2f l2t via : Option String) (c : Combination)
    (hc : c ∈ find_combinations data min_stay max_stay l1f l1t l2f l2t via) :
    (c.leg1.destination = c.intermediate_city ∧ c.leg2.origin = c.intermediate_city) ∧
    ∀ v : String, via = some v → v ≠ "" → c.intermediate_city = some v := by
  obtain ⟨f1, -, hout⟩ := mem_find_combinations.1 hc
  obtain ⟨hvia, arr, -, f2, -, hi⟩ := mem_outerCombine.1 hout
  obtain ⟨-, -, -, -, rfl⟩ := innerCombine_eq_some.1 hi
  refine ⟨⟨rfl, rfl⟩, ?_⟩
  intro v hv hne
  subst hv
  have htr : truthyS (some v) = true := by
    have hemp : v.isEmpty = false := by
      rw [← Bool.not_eq_true, String.isEmpty_iff]
      exact hne
    simp [truthyS, hemp]
  have hcity : ¬ pyOrS f1.destination f1.search_destination ≠ some v :=
    fun hne2 => hvia ⟨htr, hne2⟩
  simpa [mkCombination] using not_not.1 hcity

/-- Witness for C2 at a concrete input with `via_city = "IST"`. -/
theorem C2_witness :
    (wCombo.leg1.destination = wCombo.intermediate_city ∧
      wCombo.leg2.origin = wCombo.intermediate_city) ∧
    wCombo.intermediate_city = some "IST" :=
  have h := C2_intermediate_city_invariant wData 1 7 none none none none
    (some "IST") wCombo wCombo_mem
  ⟨h.1, h.2 "IST" rfl (by decide)⟩

/-! ## Claim C3 -/

/-- The per-leg price rule in the words of claim C3 (spec side of the
refinement): the offer's `price` field whenever that field is present,
falling back to `value` and then to `0` only when `price` is absent. -/
def claimedLegPrice (f : Flight) : ℚ :=
  match f.price with
  | some p => p
  | none =>
    match f.value with
    | some v => v
    | none => 0

/-- A leg-1 offer with a present `price` field equal to `0` and a
`value` field of `500`. -/
def cxLeg1 : Flight where
  origin := some "MOW"
  destination := some "IST"
  departure_at := some "2026-02-15T10:00:00"
  arrival_at := some "2026-02-15T14:00:00"
  price := some 0
  value := some 500

/-- Counterexample dataset for C3. -/
def cxData : FlightData where
  leg1_flights := [cxLeg1]
  leg2_flights := [wLeg2]

/-- Counterexample to C3 as stated: on `cxData` the emitted itinerary's
`leg1.price` is `500` (the `value` fallback), although the offer's
`price` field is present (with value `0`), for which the claim dictates
a leg price of `0`. -/
theorem C3_counterexample :
    (find_combinations cxData 1 7 none none none none none).map (fun c => c.leg1.price)
        = [500] ∧
    claimedLegPrice cxLeg1 = 0 ∧ (500 : ℚ) ≠ 0 := by
  refine ⟨by decide, rfl, by decide⟩

/-- The per-leg price rule actually implemented
(`flight.get("price") or flight.get("value", 0)`): the `price` field
when present and nonzero; otherwise `value`, defaulting to `0`. -/
def amendedLegPrice (f : Flight) : ℚ :=
  match f.price with
  | some p => if p = 0 then (match f.value with | some v => v | none => 0) else p
  | none =>
    match f.value with
    | some v => v
    | none => 0

theorem priceExpr_eq_amendedLegPrice (f : Flight) :
    priceExpr f = amendedLegPrice f := by
  unfold priceExpr amendedLegPrice truthyQ
  cases hp : f.price with
  | none => cases f.value <;> simp
  | some p =>
    by_cases h0 : p = 0
    · subst h0
      cases f.value <;> simp
    · simp [h0]

/-- C3 amended: `total_price` equals `leg1.price + leg2.price` exactly,
where each emitted leg's price is its source offer's `price` field
whenever that field is present and nonzero, falling back to the `value`
field and then to `0` when `price` is absent or zero (Python
truthiness). -/
theorem C3_amended_total_price (data : FlightData) (min_stay max_stay : ℤ)
    (l1f l1t l2f l2t via : Option String) (c : Combination)
    (hc : c ∈ find_combinations data min_stay max_stay l1f l1t l2f l2t via) :
    c.total_price = c.leg1.price + c.leg2.price ∧
    (∃ f1 ∈ data.leg1_flights, c.leg1.price = amendedLegPrice f1) ∧
    (∃ f2 ∈ data.leg2_flights, c.leg2.price = amendedLegPrice f2) := by
  obtain ⟨f1, hf1, hout⟩ := mem_find_combinations.1 hc
  obtain ⟨-, arr, -, f2, hf2, hi⟩ := mem_outerCombine.1 hout
  obtain ⟨-, -, -, -, rfl⟩ := innerCombine_eq_some.1 hi
  exact ⟨rfl,
    ⟨f1, mem_filterByDate hf1, priceExpr_eq_amendedLegPrice f1⟩,
    ⟨f2, mem_filterByDate hf2, priceExpr_eq_amendedLegPrice f2⟩⟩

/-- The single combination emitted from `cxData`. -/
def cxCombo : Combination :=
  mkCombination cxLeg1 (pyOrS cxLeg1.destination cxLeg1.search_destination)
    "2026-02-15T14:00:00" wLeg2 "2026-02-18T09:00:00"
    (calculate_stay_duration "2026-02-15T14:00:00" "2026-02-18T09:00:00")

theorem cxCombo_mem :
    cxCombo ∈ find_combinations cxData 1 7 none none none none none := by
  apply mem_find_combinations.2
  refine ⟨cxLeg1, by decide, mem_outerCombine.2 ?_⟩
  refine ⟨by decide, "2026-02-15T14:00:00", by decide, wLeg2, by decide,
    innerCombine_eq_some.2 ⟨by decide, by decide, by decide, by decide, rfl⟩⟩

/-- Witness for the amended C3 at a concrete input. -/
theorem C3_amended_witness :
    cxCombo.total_price = cxCombo.leg1.price + cxCombo.leg2.price ∧
    (∃ f1 ∈ cxData.leg1_flights, cxCombo.leg1.price = amendedLegPrice f1) ∧
    (∃ f2 ∈ cxData.leg2_flights, cxCombo.leg2.price = amendedLegPrice f2) :=
  C3_amended_total_price cxData 1 7 none none none none none cxCombo cxCombo_mem

/-! ## Claim C9 -/

/-- C9: `calculate_arrival` and `calculate_stay_duration` are total (the
embedding returns values for all input strings, as the Python functions
catch every exception): on parse failure `calculate_arrival` returns the
original unmodified departure string, and `calculate_stay_duration`
falls back to the whole-day difference of the date-only leading parts
(truncated at `T`), yielding `0` when even those fail to parse. -/
theorem C9_datetime_error_fallbacks :
    (∀ (s : String) (dur : ℤ), parse_datetime s = none → calculate_arrival s dur = s) ∧
    (∀ a d : String, parse_datetime a = none ∨ parse_datetime d = none →
      calculate_stay_duration a d = stayFallback a d) ∧
    (∀ a d : String,
      parseDateOnlyStr (dateOnlyOf a) = none ∨ parseDateOnlyStr (dateOnlyOf d) = none →
      stayFallback a d = 0) := by
  refine ⟨?_, ?_, ?_⟩
  · intro s dur h
    unfold calculate_arrival
    rw [h]
  · intro a d h
    rcases h with h | h
    · cases hd : parse_datetime d <;> simp [calculate_stay_duration, h, hd]
    · cases ha : parse_datetime a <;> simp [calculate_stay_duration, h, ha]
  · intro a d h
    rcases h with h | h
    · cases hd : parseDateOnlyStr (dateOnlyOf d) <;> simp [stayFallback, h, hd]
    · cases ha : parseDateOnlyStr (dateOnlyOf a) <;> simp [stayFallback, h, ha]

/-- Witness for C9 at concrete inputs (an unparseable arrival). -/
theorem C9_witness :
    calculate_arrival "notadate" 45 = "notadate" ∧
    calculate_stay_duration "notadate" "2026-02-18T09:00:00"
        = stayFallback "notadate" "2026-02-18T09:00:00" ∧
    stayFallback "notadate" "alsobad" = 0 :=
  ⟨C9_datetime_error_fallbacks.1 "notadate" 45 (by decide),
   C9_datetime_error_fallbacks.2.1 "notadate" "2026-02-18T09:00:00" (Or.inl (by decide)),
   C9_datetime_error_fallbacks.2.2 "notadate" "alsobad" (Or.inl (by decide))⟩

/-! ## Claim C5 -/

/-- A combination carrying only a total price (dummy remaining fields),
for exercising the statistics and ranking steps. -/
def statCombo (p : ℚ) (city : Option String) : Combination where
  total_price := p
  stay_days := 0
  intermediate_city := city
  leg1 := ⟨none, none, none, "", 0, none, none, none, none⟩
  leg2 := ⟨none, none, none, "", 0, none, none, none, none⟩

/-- The claim's example: total prices 100, 200, 300, 900. -/
def statsExample : List Combination :=
  [statCombo 100 (some "A"), statCombo 200 (some "B"),
   statCombo 300 (some "A"), statCombo 900 (some "C")]

/-- C5: for nonempty input, `get_statistics` reports `median_price` as
the element at index `⌊n/2⌋` of the ascending-sorted total-price
sequence (the sorted sequence being the unique `≤`-sorted permutation of
the prices); the example prices 100, 200, 300, 900 yield median 300 (not
250); and for empty input every numeric field is zero and no per-city
breakdown is present. -/
theorem C5_median_and_empty_stats :
    (∀ combos : List Combination, combos ≠ [] →
      ∃ s : List ℚ, s.Perm (combos.map fun c => c.total_price) ∧
        s.Sorted (· ≤ ·) ∧
        (get_statistics combos).median_price = s.getD (s.length / 2) 0) ∧
    (get_statistics statsExample).median_price = 300 ∧
    get_statistics ([] : List Combination) =
      { total_combinations := 0, min_price := 0, max_price := 0, avg_price := 0
        median_price := 0, by_intermediate_city := none } := by
  refine ⟨?_, by decide, rfl⟩
  intro combos hne
  refine ⟨(combos.map fun c => c.total_price).insertionSort (· ≤ ·),
    List.perm_insertionSort _ _, List.sorted_insertionSort _ _, ?_⟩
  unfold get_statistics
  rw [if_neg hne]

/-- Witness for C5's universal part at the example input. -/
theorem C5_witness :
    ∃ s : List ℚ, s.Perm (statsExample.map fun c => c.total_price) ∧
      s.Sorted (· ≤ ·) ∧
      (get_statistics statsExample).median_price = s.getD (s.length / 2) 0 :=
  C5_median_and_empty_stats.1 statsExample (by decide)

/-! ## Claim C4: supporting lemmas -/

instance : IsTotal Combination (fun a b => a.total_price ≤ b.total_price) :=
  ⟨fun x y => le_total x.total_price y.total_price⟩

instance : IsTrans Combination (fun a b => a.total_price ≤ b.total_price) :=
  ⟨fun _ _ _ hab hbc => le_trans hab hbc⟩

theorem orderedInsert_filter_eq_key (x : Combination) (ys : List Combination) (p : ℚ)
    (hx : x.total_price = p) :
    (ys.orderedInsert (fun a b => a.total_price ≤ b.total_price) x).filter
        (fun c => decide (c.total_price = p)) =
      x :: ys.filter (fun c => decide (c.total_price = p)) := by
  induction ys with
  | nil => simp [List.orderedInsert, hx]
  | cons y ys ih =>
    by_cases h : x.total_price ≤ y.total_price
    · rw [List.orderedInsert, if_pos h]
      simp [hx]
    · have hlt : y.total_price < x.total_price := lt_of_not_le h
      have hne : y.total_price ≠ p := hx ▸ ne_of_lt hlt
      rw [List.orderedInsert, if_neg h]
      simp [List.filter_cons, hne, ih]

theorem orderedInsert_filter_ne_key (x : Combination) (ys : List Combination) (p : ℚ)
    (hx : x.total_price ≠ p) :
    (ys.orderedInsert (fun a b => a.total_price ≤ b.total_price) x).filter
        (fun c => decide (c.total_price = p)) =
      ys.filter (fun c => decide (c.total_price = p)) := by
  induction ys with
  | nil => simp [List.orderedInsert, hx]
  | cons y ys ih =>
    by_cases h : x.total_price ≤ y.total_price
    · rw [List.orderedInsert, if_pos h]
      simp [List.filter_cons, hx]
    · rw [List.orderedInsert, if_neg h]
      simp [List.filter_cons, ih]

theorem sortCombinations_filter_eq (l : List Combination) (p : ℚ) :
    (sortCombinations l).filter (fun c => decide (c.total_price = p)) =
      l.filter (fun c => decide (c.total_price = p)) := by
  induction l with
  | nil => rfl
  | cons x l ih =>
    show ((sortCombinations l).orderedInsert _ x).filter _ = _
    by_cases hx : x.total_price = p
    · rw [orderedInsert_filter_eq_key x _ p hx, ih]
      simp [List.filter_cons, hx]
    · rw [orderedInsert_filter_ne_key x _ p hx, ih]
      simp [List.filter_cons, hx]

theorem uniqueCitiesGo_city_not_mem (seen : List (Option String))
    (l : List Combination) :
    ∀ y ∈ uniqueCitiesGo seen l, y.intermediate_city ∉ seen := by
  induction l generalizing seen with
  | nil => simp [uniqueCitiesGo]
  | cons c l ih =>
    intro y hy
    unfold uniqueCitiesGo at hy
    by_cases h : c.intermediate_city ∈ seen
    · rw [if_pos h] at hy
      exact ih seen y hy
    · rw [if_neg h] at hy
      rcases List.mem_cons.1 hy with rfl | hy'
      · exact h
      · exact fun hs => ih _ y hy' (List.mem_cons_of_mem _ hs)

theorem uniqueCitiesGo_sublist (seen : List (Option String)) (l : List Combination) :
    List.Sublist (uniqueCitiesGo seen l) l := by
  induction l generalizing seen with
  | nil => simp [uniqueCitiesGo]
  | cons c l ih =>
    unfold uniqueCitiesGo
    by_cases h : c.intermediate_city ∈ seen
    · rw [if_pos h]
      exact (ih seen).cons c
    · rw [if_neg h]
      exact (ih _).cons₂ c

theorem uniqueCitiesGo_nodup_cities (seen : List (Option String)) (l : List Combination) :
    ((uniqueCitiesGo seen l).map (fun c => c.intermediate_city)).Nodup := by
  induction l generalizing seen with
  | nil => simp [uniqueCitiesGo]
  | cons c l ih =>
    unfold uniqueCitiesGo
    by_cases h : c.intermediate_city ∈ seen
    · rw [if_pos h]
      exact ih seen
    · rw [if_neg h]
      refine List.nodup_cons.2 ⟨?_, ih _⟩
      intro hmem
      obtain ⟨y, hy, hcity⟩ := List.mem_map.1 hmem
      exact uniqueCitiesGo_city_not_mem _ l y hy (hcity ▸ List.mem_cons_self _ _)

theorem uniqueCitiesGo_covers (seen : List (Option String)) (l : List Combination) :
    ∀ x ∈ l, x.intermediate_city ∈ seen ∨
      ∃ y ∈ uniqueCitiesGo seen l, y.intermediate_city = x.intermediate_city := by
  induction l generalizing seen with
  | nil => simp
  | cons c l ih =>
    intro x hx
    unfold uniqueCitiesGo
    by_cases h : c.intermediate_city ∈ seen
    · rw [if_pos h]
      rcases List.mem_cons.1 hx with rfl | hx'
      · exact Or.inl h
      · exact ih seen x hx'
    · rw [if_neg h]
      rcases List.mem_cons.1 hx with rfl | hx'
      · exact Or.inr ⟨x, List.mem_cons_self _ _, rfl⟩
      · rcases ih (c.intermediate_city :: seen) x hx' with hin | ⟨y, hy, hcity⟩
        · rcases List.mem_cons.1 hin with heq | hin'
          · exact Or.inr ⟨c, List.mem_cons_self _ _, heq.symm⟩
          · exact Or.inl hin'
        · exact Or.inr ⟨y, List.mem_cons_of_mem _ hy, hcity⟩

theorem uniqueCitiesGo_min (l : List Combination)
    (hl : l.Sorted (fun a b => a.total_price ≤ b.total_price))
    (seen : List (Option String)) :
    ∀ y ∈ uniqueCitiesGo seen l, ∀ x ∈ l,
      x.intermediate_city = y.intermediate_city → y.total_price ≤ x.total_price := by
  induction l generalizing seen with
  | nil => simp [uniqueCitiesGo]
  | cons c l ih =>
    have hc : ∀ b ∈ l, c.total_price ≤ b.total_price := (List.sorted_cons.1 hl).1
    have hl' := (List.sorted_cons.1 hl).2
    intro y hy x hx hxy
    unfold uniqueCitiesGo at hy
    by_cases h : c.intermediate_city ∈ seen
    · rw [if_pos h] at hy
      rcases List.mem_cons.1 hx with rfl | hx'
      · exact absurd (hxy ▸ h) (uniqueCitiesGo_city_not_mem seen l y hy)
      · exact ih hl' seen y hy x hx' hxy
    · rw [if_neg h] at hy
      rcases List.mem_cons.1 hy with rfl | hy'
      · rcases List.mem_cons.1 hx with rfl | hx'
        · exact le_refl _
        · exact hc x hx'
      · rcases List.mem_cons.1 hx with rfl | hx'
        · have hnm := uniqueCitiesGo_city_not_mem (x.intermediate_city :: seen) l y hy'
          exact absurd (hxy ▸ List.mem_cons_self _ _) hnm
        · exact ih hl' _ y hy' x hx' hxy

/-! ## Claim C4 -/

/-- C4: the ranking step sorts ascending by `total_price` with a stable
sort (a permutation, sorted, in which the sequence of elements at each
price value is exactly the input's sequence); when `unique_cities` is
enabled the output is, in sorted order, exactly the first itinerary per
distinct intermediate city — a sublist of the sorted list whose cities
are pairwise distinct, covering every city of the input, each retained
itinerary having the minimum `total_price` among all candidates for its
city — and the `top_n` truncation displayed by `print_summary` keeps
cities pairwise distinct. -/
theorem C4_ranking (combos : List Combination) (top_n : ℕ) :
    ((rankCombinations combos false).Sorted (fun a b => a.total_price ≤ b.total_price) ∧
      (rankCombinations combos false).Perm combos ∧
      ∀ p : ℚ, (rankCombinations combos false).filter (fun c => decide (c.total_price = p))
          = combos.filter (fun c => decide (c.total_price = p))) ∧
    (List.Sublist (rankCombinations combos true) (rankCombinations combos false) ∧
      ((rankCombinations combos true).map (fun c => c.intermediate_city)).Nodup ∧
      (∀ x ∈ combos, ∃ y ∈ rankCombinations combos true,
        y.intermediate_city = x.intermediate_city) ∧
      (∀ y ∈ rankCombinations combos true, ∀ x ∈ combos,
        x.intermediate_city = y.intermediate_city → y.total_price ≤ x.total_price)) ∧
    ((topCombinations combos true top_n).map (fun c => c.intermediate_city)).Nodup := by
  have hsorted : (sortCombinations combos).Sorted (fun a b => a.total_price ≤ b.total_price) :=
    List.sorted_insertionSort _ _
  have hperm : (sortCombinations combos).Perm combos := List.perm_insertionSort _ _
  have hfalse : rankCombinations combos false = sortCombinations combos := rfl
  have htrue : rankCombinations combos true = uniqueCitiesGo [] (sortCombinations combos) := rfl
  refine ⟨⟨hfalse ▸ hsorted, hfalse ▸ hperm, fun p => sortCombinations_filter_eq combos p⟩,
    ⟨?_, ?_, ?_, ?_⟩, ?_⟩
  · rw [htrue, hfalse]
    exact uniqueCitiesGo_sublist [] _
  · rw [htrue]
    exact uniqueCitiesGo_nodup_cities [] _
  · intro x hx
    rw [htrue]
    have hx' : x ∈ sortCombinations combos := hperm.mem_iff.2 hx
    rcases uniqueCitiesGo_covers [] (sortCombinations combos) x hx' with hin | h
    · exact absurd hin (List.not_mem_nil _)
    · exact h
  · intro y hy x hx hxy
    rw [htrue] at hy
    have hx' : x ∈ sortCombinations combos := hperm.mem_iff.2 hx
    exact uniqueCitiesGo_min _ hsorted [] y hy x hx' hxy
  · have hsub : List.Sublist
        ((topCombinations combos true top_n).map (fun c => c.intermediate_city))
        ((rankCombinations combos true).map (fun c => c.intermediate_city)) :=
      (List.take_sublist _ _).map _
    exact hsub.nodup (htrue ▸ uniqueCitiesGo_nodup_cities [] _)

/-- Input for the C4 witness: duplicate cities with price ties. -/
def rankExample : List Combination :=
  [statCombo 500 (some "A"), statCombo 300 (some "B"), statCombo 300 (some "A"),
   statCombo 100 (some "C"), statCombo 300 (some "C"), statCombo 100 (some "A")]

/-- Witness for C4 at a concrete input. -/
theorem C4_witness :
    ((rankCombinations rankExample true).map (fun c => c.intermediate_city)).Nodup ∧
    ∃ y ∈ rankCombinations rankExample true, y.intermediate_city = some "A" :=
  have h := C4_ranking rankExample 3
  ⟨h.2.1.2.1, h.2.1.2.2.1 (statCombo 500 (some "A")) (by decide)⟩

/-! ## Haversine lemmas and Claim C8 -/

theorem haversine_self (lat lon : ℝ) : haversine_distance lat lon lat lon = 0 := by
  unfold haversine_distance
  simp

theorem haversine_symm (lat1 lon1 lat2 lon2 : ℝ) :
    haversine_distance lat1 lon1 lat2 lon2 = haversine_distance lat2 lon2 lat1 lon1 := by
  have hsin : ∀ u v : ℝ, Real.sin ((u - v) / 2) ^ 2 = Real.sin ((v - u) / 2) ^ 2 := by
    intro u v
    rw [show (u - v) / 2 = -((v - u) / 2) by ring, Real.sin_neg]
    ring
  simp only [haversine_distance]
  rw [hsin, mul_comm (Real.cos (lat1 * (Real.pi / 180))),
    hsin (lon2 * (Real.pi / 180)) (lon1 * (Real.pi / 180))]

/-- C8: the distance kernel vanishes on identical coordinate pairs, and
it is symmetric, in particular symmetric to within `1e-6` km. -/
theorem C8_zero_and_symmetric :
    (∀ lat lon : ℝ, haversine_distance lat lon lat lon = 0) ∧
    (∀ lat1 lon1 lat2 lon2 : ℝ,
      |haversine_distance lat1 lon1 lat2 lon2 - haversine_distance lat2 lon2 lat1 lon1|
        ≤ 1 / 1000000) := by
  refine ⟨haversine_self, ?_⟩
  intro lat1 lon1 lat2 lon2
  rw [haversine_symm lat1 lon1 lat2 lon2, sub_self, abs_zero]
  norm_num

/-! ## Claim C10: supporting lemmas -/

/-- The preprocessing keeps exactly the airports with a truthy
`iata_code` whose coordinate string parses. -/
def keepsAirport (a : Airport) : Prop :=
  truthyS a.iata_code = true ∧ parse_coordinates (a.coordinates.getD "") ≠ none

theorem dictInsert_keys {β : Type} (k : String) (v : β) (l : List (String × β))
    (code : String) :
    code ∈ (dictInsert k v l).map Prod.fst ↔ code = k ∨ code ∈ l.map Prod.fst := by
  induction l with
  | nil => simp [dictInsert]
  | cons p l ih =>
    obtain ⟨k', v'⟩ := p
    by_cases h : k' = k
    · rw [show dictInsert k v ((k', v') :: l) = (k, v) :: l from by simp [dictInsert, h]]
      subst h
      simp
    · rw [show dictInsert k v ((k', v') :: l) = (k', v') :: dictInsert k v l from by
        simp [dictInsert, h]]
      simp [ih]
      tauto

theorem truthyS_getD_eq {o : Option String} (h : truthyS o = true) (code : String) :
    o = some code ↔ o.getD "" = code := by
  cases o with
  | none => simp [truthyS] at h
  | some s => simp

theorem foldl_entriesStep_keys (airports : List Airport) :
    ∀ (acc : List (String × AirportEntry)) (code : String),
      code ∈ (airports.foldl entriesStep acc).map Prod.fst ↔
        code ∈ acc.map Prod.fst ∨
          ∃ a ∈ airports, keepsAirport a ∧ a.iata_code = some code := by
  induction airports with
  | nil => simp
  | cons a as ih =>
    intro acc code
    rw [List.foldl_cons, ih]
    unfold entriesStep
    by_cases ht : truthyS a.iata_code = true
    · rw [if_pos ht]
      cases hp : parse_coordinates (a.coordinates.getD "") with
      | none =>
        constructor
        · rintro (h | ⟨b, hb, hk, hc⟩)
          · exact Or.inl h
          · exact Or.inr ⟨b, List.mem_cons_of_mem _ hb, hk, hc⟩
        · rintro (h | ⟨b, hb, hk, hc⟩)
          · exact Or.inl h
          · rcases List.mem_cons.1 hb with rfl | hb'
            · exact absurd hp hk.2
            · exact Or.inr ⟨b, hb', hk, hc⟩
      | some ll =>
        rw [dictInsert_keys]
        constructor
        · rintro ((rfl | h) | ⟨b, hb, hk, hc⟩)
          · refine Or.inr ⟨a, List.mem_cons_self _ _, ⟨ht, by rw [hp]; simp⟩, ?_⟩
            exact (truthyS_getD_eq ht _).2 rfl
          · exact Or.inl h
          · exact Or.inr ⟨b, List.mem_cons_of_mem _ hb, hk, hc⟩
        · rintro (h | ⟨b, hb, hk, hc⟩)
          · exact Or.inl (Or.inr h)
          · rcases List.mem_cons.1 hb with rfl | hb'
            · exact Or.inl (Or.inl ((truthyS_getD_eq ht code).1 hc).symm)
            · exact Or.inr ⟨b, hb', hk, hc⟩
    · rw [if_neg ht]
      constructor
      · rintro (h | ⟨b, hb, hk, hc⟩)
        · exact Or.inl h
        · exact Or.inr ⟨b, List.mem_cons_of_mem _ hb, hk, hc⟩
      · rintro (h | ⟨b, hb, hk, hc⟩)
        · exact Or.inl h
        · rcases List.mem_cons.1 hb with rfl | hb'
          · exact absurd hk.1 ht
          · exact Or.inr ⟨b, hb', hk, hc⟩

theorem build_network_keys (airports : List Airport) (m : ℝ) :
    (build_airport_network airports m).map Prod.fst
      = (airportEntriesOf airports).map Prod.fst := by
  simp only [build_airport_network, List.map_map]
  rfl

theorem entries_keys_iff (airports : List Airport) (code : String) :
    code ∈ (airportEntriesOf airports).map Prod.fst ↔
      ∃ a ∈ airports, keepsAirport a ∧ a.iata_code = some code := by
  rw [airportEntriesOf, foldl_entriesStep_keys]
  simp

/-! ## Claim C10 -/

/-- C10: the key set of the network returned by `build_airport_network`
is exactly the set of codes of input airports with a truthy `iata_code`
and a parseable coordinate string; a kept airport none of whose
qualifying peers lies within range is still a key, with an empty
`nearby_airports` list; and every code appearing in any neighbor list is
itself the code of a kept airport (so an excluded record contributes
neither a key nor a neighbor). -/
theorem C10_network_key_set (airports : List Airport) (max_distance_km : ℝ) :
    (∀ code : String,
      (∃ e ∈ build_airport_network airports max_distance_km, e.1 = code) ↔
        ∃ a ∈ airports, keepsAirport a ∧ a.iata_code = some code) ∧
    (∀ p ∈ airportEntriesOf airports,
      (∀ q ∈ airportEntriesOf airports, q.1 ≠ p.1 →
        ¬ haversine_distance (p.2.lat : ℝ) (p.2.lon : ℝ) (q.2.lat : ℝ) (q.2.lon : ℝ)
            ≤ max_distance_km) →
      ∃ v : NetworkEntry, (p.1, v) ∈ build_airport_network airports max_distance_km ∧
        v.nearby_airports = []) ∧
    (∀ e ∈ build_airport_network airports max_distance_km,
      ∀ nb ∈ e.2.nearby_airports,
        ∃ a ∈ airports, keepsAirport a ∧ a.iata_code = some nb.iata) := by
  refine ⟨?_, ?_, ?_⟩
  · intro code
    constructor
    · rintro ⟨e, he, rfl⟩
      have hk : e.1 ∈ (build_airport_network airports max_distance_km).map Prod.fst :=
        List.mem_map_of_mem _ he
      rw [build_network_keys, entries_keys_iff] at hk
      exact hk
    · intro h
      have hk : code ∈ (airportEntriesOf airports).map Prod.fst :=
        (entries_keys_iff _ _).2 h
      rw [← build_network_keys] at hk
      exact List.mem_map.1 hk
  · intro p hp hfar
    simp only [build_airport_network]
    refine ⟨_, List.mem_map_of_mem _ hp, ?_⟩
    have hnil : ((airportEntriesOf airports).filterMap fun q =>
        if p.1 = q.1 then none
        else
          if haversine_distance (p.2.lat : ℝ) (p.2.lon : ℝ) (q.2.lat : ℝ) (q.2.lon : ℝ)
              ≤ max_distance_km then
            some { iata := q.1
                   distance_km := round2R (haversine_distance (p.2.lat : ℝ) (p.2.lon : ℝ)
                     (q.2.lat : ℝ) (q.2.lon : ℝ)) : NeighborEntry }
          else none) = [] := by
      rw [List.filterMap_eq_nil_iff]
      intro q hq
      by_cases h1 : p.1 = q.1
      · rw [if_pos h1]
      · rw [if_neg h1, if_neg (hfar q hq fun hq1 => h1 hq1.symm)]
    show List.insertionSort _ _ = []
    rw [hnil]
    rfl
  · intro e he nb hnb
    simp only [build_airport_network] at he
    obtain ⟨p, hp, rfl⟩ := List.mem_map.1 he
    have hnb' := (List.mem_insertionSort _).1 hnb
    obtain ⟨q, hq, hgq⟩ := List.mem_filterMap.1 hnb'
    by_cases h1 : p.1 = q.1
    · rw [if_pos h1] at hgq
      cases hgq
    · rw [if_neg h1] at hgq
      by_cases h2 : haversine_distance (p.2.lat : ℝ) (p.2.lon : ℝ) (q.2.lat : ℝ)
          (q.2.lon : ℝ) ≤ max_distance_km
      · rw [if_pos h2] at hgq
        have hrec := Option.some.inj hgq
        have hiata : nb.iata = q.1 := by rw [← hrec]
        have hkq : q.1 ∈ (airportEntriesOf airports).map Prod.fst :=
          List.mem_map_of_mem _ hq
        rw [entries_keys_iff] at hkq
        rw [hiata]
        exact hkq
      · rw [if_neg h2] at hgq
        cases hgq

/-- A kept airport for the C10 witness. -/
def nwGood : Airport where
  iata_code := some "AAA"
  name := some "Good"
  coordinates := some "1, 5"

/-- An airport with unparseable coordinates. -/
def nwBadCoords : Airport where
  iata_code := some "XXX"
  coordinates := some "oops"

/-- An airport with a falsy (empty) code. -/
def nwNoCode : Airport where
  iata_code := some ""
  coordinates := some "2, 3"

def nwAirports : List Airport := [nwGood, nwBadCoords, nwNoCode]

/-- Witness for C10 at a concrete input: the kept airport is a key with
an empty neighbor list; the airport with unparseable coordinates is not
a key. -/
theorem C10_witness :
    (∃ e ∈ build_airport_network nwAirports 100, e.1 = "AAA") ∧
    (¬ ∃ e ∈ build_airport_network nwAirports 100, e.1 = "XXX") ∧
    (∃ v : NetworkEntry, ("AAA", v) ∈ build_airport_network nwAirports 100 ∧
      v.nearby_airports = []) := by
  have h := C10_network_key_set nwAirports 100
  have hgood : keepsAirport nwGood := ⟨by decide, by decide⟩
  have honly : ∀ a ∈ nwAirports, keepsAirport a → a = nwGood := by
    intro a ha hk
    have ha' : a = nwGood ∨ a = nwBadCoords ∨ a = nwNoCode := by
      simpa [nwAirports] using ha
    rcases ha' with rfl | rfl | rfl
    · rfl
    · exact absurd hk.2 (by decide)
    · exact absurd hk.1 (by decide)
  refine ⟨?_, ?_, ?_⟩
  · exact (h.1 "AAA").2 ⟨nwGood, by decide, hgood, rfl⟩
  · rintro hex
    obtain ⟨a, ha, hk, hc⟩ := (h.1 "XXX").1 hex
    have := honly a ha hk
    subst this
    exact absurd hc (by decide)
  · have hkey : "AAA" ∈ (airportEntriesOf nwAirports).map Prod.fst :=
      (entries_keys_iff _ _).2 ⟨nwGood, by decide, hgood, rfl⟩
    obtain ⟨p, hp, hp1⟩ := List.mem_map.1 hkey
    have hfar : ∀ q ∈ airportEntriesOf nwAirports, q.1 ≠ p.1 →
        ¬ haversine_distance (p.2.lat : ℝ) (p.2.lon : ℝ) (q.2.lat : ℝ) (q.2.lon : ℝ)
          ≤ 100 := by
      intro q hq hne
      exfalso
      apply hne
      have hkq : q.1 ∈ (airportEntriesOf nwAirports).map Prod.fst :=
        List.mem_map_of_mem _ hq
      obtain ⟨a, ha, hk, hc⟩ := (entries_keys_iff _ _).1 hkq
      have := honly a ha hk
      subst this
      have hq1 : q.1 = "AAA" := by
        have := hc
        simp [nwGood] at this
        exact this.symm
      rw [hq1, hp1]
    obtain ⟨v, hv, hvnil⟩ := h.2.1 p hp hfar
    rw [hp1] at hv
    exact ⟨v, hv, hvnil⟩

/-! ## Claim C7: supporting lemmas -/

theorem haversine_nonneg (lat1 lon1 lat2 lon2 : ℝ) :
    0 ≤ haversine_distance lat1 lon1 lat2 lon2 := by
  simp only [haversine_distance]
  have harc : 0 ≤ Real.arcsin (Real.sqrt (Real.sin ((lat2 * (Real.pi / 180)
      - lat1 * (Real.pi / 180)) / 2) ^ 2 + Real.cos (lat1 * (Real.pi / 180))
      * Real.cos (lat2 * (Real.pi / 180)) * Real.sin ((lon2 * (Real.pi / 180)
      - lon1 * (Real.pi / 180)) / 2) ^ 2)) :=
    Real.arcsin_nonneg.2 (Real.sqrt_nonneg _)
  nlinarith

theorem round2R_zero : round2R 0 = 0 := by
  simp [round2R]

theorem parse_c00 : parse_coordinates "0, 0" = some (0, 0) := by
  have h : parse_coordinates "0, 0" =
      some ((((0 : ℕ) : ℚ)) / ((10 : ℚ) ^ (0 : ℕ)),
        (((0 : ℕ) : ℚ)) / ((10 : ℚ) ^ (0 : ℕ))) := rfl
  rw [h]
  norm_num

theorem parse_c90 : parse_coordinates "90, 0" = some (90, 0) := by
  have h : parse_coordinates "90, 0" =
      some ((((90 : ℕ) : ℚ)) / ((10 : ℚ) ^ (0 : ℕ)),
        (((0 : ℕ) : ℚ)) / ((10 : ℚ) ^ (0 : ℕ))) := rfl
  rw [h]
  norm_num

/-- The geodesic distance from the equator/prime-meridian point to the
north pole is positive. -/
theorem haversine_0_90_pos : 0 < haversine_distance 0 0 90 0 := by
  simp only [haversine_distance]
  rw [show (0:ℝ) * (Real.pi / 180) = 0 by ring,
    show (90:ℝ) * (Real.pi / 180) = Real.pi / 2 by ring,
    show (Real.pi / 2 - 0) / 2 = Real.pi / 4 by ring,
    show ((0:ℝ) - 0) / 2 = 0 by ring,
    Real.sin_zero, Real.cos_pi_div_two, Real.sin_pi_div_four]
  have ha : (Real.sqrt 2 / 2) ^ 2 + Real.cos 0 * 0 * 0 ^ 2 = 1 / 2 := by
    rw [div_pow, Real.sq_sqrt (by norm_num : (0:ℝ) ≤ 2)]
    ring
  rw [ha]
  have harc : 0 < Real.arcsin (Real.sqrt (1 / 2)) :=
    Real.arcsin_pos.2 (Real.sqrt_pos.2 (by norm_num))
  nlinarith

/-! ## Claim C7 -/

/-- Two distinct airport records sharing exact coordinates. -/
def cpA : Airport where
  iata_code := some "AAA"
  coordinates := some "0, 0"

def cpB : Airport where
  iata_code := some "BBB"
  coordinates := some "0, 0"

def cpAirports : List Airport := [cpA, cpB]

/-- Counterexample to C7 as stated: with `max_distance_km = 0`, two
co-located airports (haversine distance exactly `0 ≤ 0`) each keep the
other as a neighbor, so the airport `AAA` of `cpAirports` has a
non-empty `nearby_airports` list. -/
theorem C7_counterexample :
    ∃ e ∈ build_airport_network cpAirports 0,
      e.1 = "AAA" ∧ e.2.nearby_airports ≠ [] := by
  have he : airportEntriesOf cpAirports =
      [("AAA", ⟨0, 0, "", "", "", "0, 0"⟩), ("BBB", ⟨0, 0, "", "", "", "0, 0"⟩)] := by
    simp +decide [airportEntriesOf, entriesStep, cpA, cpB, cpAirports, parse_c00,
      dictInsert, truthyS]
  simp only [build_airport_network, he, List.map_cons, List.map_nil]
  refine ⟨_, List.mem_cons_self _ _, rfl, ?_⟩
  simp only [List.filterMap_cons, List.filterMap_nil, haversine_self]
  simp +decide [List.insertionSort, List.orderedInsert]

/-- C7 amended: with `max_distance_km = 0` the only neighbors the build
records are airports at haversine distance exactly `0` (every recorded
neighbor distance is `0`); whenever all pairs of distinct kept airports
are at positive distance, every airport's neighbor list is empty. -/
theorem C7_amended_zero_radius (airports : List Airport) :
    (∀ e ∈ build_airport_network airports 0, ∀ nb ∈ e.2.nearby_airports,
      nb.distance_km = 0) ∧
    ((∀ p ∈ airportEntriesOf airports, ∀ q ∈ airportEntriesOf airports, p.1 ≠ q.1 →
        0 < haversine_distance (p.2.lat : ℝ) (p.2.lon : ℝ) (q.2.lat : ℝ) (q.2.lon : ℝ)) →
      ∀ e ∈ build_airport_network airports 0, e.2.nearby_airports = []) := by
  constructor
  · intro e he nb hnb
    simp only [build_airport_network] at he
    obtain ⟨p, hp, rfl⟩ := List.mem_map.1 he
    have hnb' := (List.mem_insertionSort _).1 hnb
    obtain ⟨q, hq, hgq⟩ := List.mem_filterMap.1 hnb'
    by_cases h1 : p.1 = q.1
    · rw [if_pos h1] at hgq
      cases hgq
    · rw [if_neg h1] at hgq
      by_cases h2 : haversine_distance (p.2.lat : ℝ) (p.2.lon : ℝ) (q.2.lat : ℝ)
          (q.2.lon : ℝ) ≤ 0
      · rw [if_pos h2] at hgq
        have hd0 : haversine_distance (p.2.lat : ℝ) (p.2.lon : ℝ) (q.2.lat : ℝ)
            (q.2.lon : ℝ) = 0 :=
          le_antisymm h2 (haversine_nonneg _ _ _ _)
        have hrec := Option.some.inj hgq
        rw [← hrec]
        show round2R _ = 0
        rw [hd0, round2R_zero]
      · rw [if_neg h2] at hgq
        cases hgq
  · intro hpos e he
    simp only [build_airport_network] at he
    obtain ⟨p, hp, rfl⟩ := List.mem_map.1 he
    have hnil : ((airportEntriesOf airports).filterMap fun q =>
        if p.1 = q.1 then none
        else
          if haversine_distance (p.2.lat : ℝ) (p.2.lon : ℝ) (q.2.lat : ℝ) (q.2.lon : ℝ)
              ≤ 0 then
            some { iata := q.1
                   distance_km := round2R (haversine_distance (p.2.lat : ℝ) (p.2.lon : ℝ)
                     (q.2.lat : ℝ) (q.2.lon : ℝ)) : NeighborEntry }
          else none) = [] := by
      rw [List.filterMap_eq_nil_iff]
      intro q hq
      by_cases h1 : p.1 = q.1
      · rw [if_pos h1]
      · rw [if_neg h1, if_neg (not_le.2 (hpos p hp q hq h1))]
    show List.insertionSort _ _ = []
    rw [hnil]
    rfl

/-- Airports at genuinely distinct points for the C7 witness. -/
def wposA : Airport where
  iata_code := some "AAA"
  coordinates := some "0, 0"

def wposB : Airport where
  iata_code := some "BBB"
  coordinates := some "90, 0"

def wposAirports : List Airport := [wposA, wposB]

/-- Witness for the amended C7: with two airports at positive mutual
distance and `max_distance_km = 0`, the entry for `AAA` has an empty
neighbor list. -/
theorem C7_amended_witness :
    ∃ v : NetworkEntry, ("AAA", v) ∈ build_airport_network wposAirports 0 ∧
      v.nearby_airports = [] := by
  have he : airportEntriesOf wposAirports =
      [("AAA", ⟨0, 0, "", "", "", "0, 0"⟩), ("BBB", ⟨90, 0, "", "", "", "90, 0"⟩)] := by
    simp +decide [airportEntriesOf, entriesStep, wposA, wposB, wposAirports, parse_c00,
      parse_c90, dictInsert, truthyS]
  have hpos : ∀ p ∈ airportEntriesOf wposAirports, ∀ q ∈ airportEntriesOf wposAirports,
      p.1 ≠ q.1 →
      0 < haversine_distance (p.2.lat : ℝ) (p.2.lon : ℝ) (q.2.lat : ℝ) (q.2.lon : ℝ) := by
    rw [he]
    intro p hp q hq hne
    have hp' : p = ("AAA", ⟨0, 0, "", "", "", "0, 0"⟩) ∨
        p = ("BBB", ⟨90, 0, "", "", "", "90, 0"⟩) := by simpa using hp
    have hq' : q = ("AAA", ⟨0, 0, "", "", "", "0, 0"⟩) ∨
        q = ("BBB", ⟨90, 0, "", "", "", "90, 0"⟩) := by simpa using hq
    rcases hp' with rfl | rfl <;> rcases hq' with rfl | rfl
    · exact absurd rfl hne
    · show 0 < haversine_distance ((0:ℚ):ℝ) ((0:ℚ):ℝ) ((90:ℚ):ℝ) ((0:ℚ):ℝ)
      push_cast
      exact haversine_0_90_pos
    · show 0 < haversine_distance ((90:ℚ):ℝ) ((0:ℚ):ℝ) ((0:ℚ):ℝ) ((0:ℚ):ℝ)
      rw [haversine_symm ((90:ℚ):ℝ) ((0:ℚ):ℝ) ((0:ℚ):ℝ) ((0:ℚ):ℝ)]
      push_cast
      exact haversine_0_90_pos
    · exact absurd rfl hne
  have hkey : "AAA" ∈ (airportEntriesOf wposAirports).map Prod.fst := by
    rw [he]
    simp
  have hnil := (C7_amended_zero_radius wposAirports).2 hpos
  have hb : "AAA" ∈ (build_airport_network wposAirports 0).map Prod.fst := by
    rw [build_network_keys]
    exact hkey
  obtain ⟨e, he2, he1⟩ := List.mem_map.1 hb
  refine ⟨e.2, ?_, hnil e he2⟩
  rw [← he1]
  exact he2

/-! ## Claim C6: real-arithmetic analysis of the inverse-sine argument

The code contains no clamp before `math.asin(math.sqrt(a))`; over exact
real arithmetic none is needed, because for latitudes in the valid range
the intermediate value `a` always lies in `[0, 1]`.  Whether the
floating-point evaluation can push `a` above `1` (and past the
forgiveness of the square root) is a property of IEEE-754 rounding that
this embedding does not model. -/

/-- The intermediate value `a` computed by `haversine_distance` (the
variable `a` of the source). -/
noncomputable def haversineArg (lat1 lon1 lat2 lon2 : ℝ) : ℝ :=
  Real.sin ((lat2 * (Real.pi / 180) - lat1 * (Real.pi / 180)) / 2) ^ 2
    + Real.cos (lat1 * (Real.pi / 180)) * Real.cos (lat2 * (Real.pi / 180))
      * Real.sin ((lon2 * (Real.pi / 180) - lon1 * (Real.pi / 180)) / 2) ^ 2

theorem haversine_eq_arcsin_arg (lat1 lon1 lat2 lon2 : ℝ) :
    haversine_distance lat1 lon1 lat2 lon2
      = 6371 * (2 * Real.arcsin (Real.sqrt (haversineArg lat1 lon1 lat2 lon2))) := rfl

theorem sin_sq_half_eq (x : ℝ) : Real.sin (x / 2) ^ 2 = (1 - Real.cos x) / 2 := by
  have h := Real.cos_two_mul (x / 2)
  rw [show 2 * (x / 2) = x by ring] at h
  have hp := Real.sin_sq_add_cos_sq (x / 2)
  linarith

/-- For valid latitudes the inverse-sine argument lies in `[0, 1]`
without any clamping. -/
theorem haversineArg_mem_unit_interval (lat1 lon1 lat2 lon2 : ℝ)
    (h1l : -90 ≤ lat1) (h1u : lat1 ≤ 90) (h2l : -90 ≤ lat2) (h2u : lat2 ≤ 90) :
    0 ≤ haversineArg lat1 lon1 lat2 lon2 ∧ haversineArg lat1 lon1 lat2 lon2 ≤ 1 := by
  unfold haversineArg
  have hpi : (0:ℝ) < Real.pi / 180 := by positivity
  have hc1 : 0 ≤ Real.cos (lat1 * (Real.pi / 180)) := by
    apply Real.cos_nonneg_of_mem_Icc
    constructor
    · rw [show -(Real.pi / 2) = -90 * (Real.pi / 180) by ring]
      exact mul_le_mul_of_nonneg_right h1l hpi.le
    · rw [show Real.pi / 2 = 90 * (Real.pi / 180) by ring]
      exact mul_le_mul_of_nonneg_right h1u hpi.le
  have hc2 : 0 ≤ Real.cos (lat2 * (Real.pi / 180)) := by
    apply Real.cos_nonneg_of_mem_Icc
    constructor
    · rw [show -(Real.pi / 2) = -90 * (Real.pi / 180) by ring]
      exact mul_le_mul_of_nonneg_right h2l hpi.le
    · rw [show Real.pi / 2 = 90 * (Real.pi / 180) by ring]
      exact mul_le_mul_of_nonneg_right h2u hpi.le
  rw [sin_sq_half_eq, sin_sq_half_eq, Real.cos_sub]
  have hs1 := Real.sin_sq_add_cos_sq (lat1 * (Real.pi / 180))
  have hs2 := Real.sin_sq_add_cos_sq (lat2 * (Real.pi / 180))
  have hclo := Real.neg_one_le_cos (lon2 * (Real.pi / 180) - lon1 * (Real.pi / 180))
  have hchi := Real.cos_le_one (lon2 * (Real.pi / 180) - lon1 * (Real.pi / 180))
  have hcd1 := Real.neg_one_le_cos (lat2 * (Real.pi / 180) - lat1 * (Real.pi / 180))
  have hcd2 := Real.cos_le_one (lat2 * (Real.pi / 180) - lat1 * (Real.pi / 180))
  constructor
  · have t2 : 0 ≤ Real.cos (lat1 * (Real.pi / 180)) * Real.cos (lat2 * (Real.pi / 180))
        * ((1 - Real.cos (lon2 * (Real.pi / 180) - lon1 * (Real.pi / 180))) / 2) := by
      apply mul_nonneg (mul_nonneg hc1 hc2)
      linarith
    nlinarith [t2,
      sq_nonneg (Real.cos (lat1 * (Real.pi / 180)) - Real.cos (lat2 * (Real.pi / 180))),
      sq_nonneg (Real.sin (lat1 * (Real.pi / 180)) - Real.sin (lat2 * (Real.pi / 180)))]
  · nlinarith [sq_nonneg (Real.sin (lat1 * (Real.pi / 180)) + Real.sin (lat2 * (Real.pi / 180))),
      sq_nonneg (Real.cos (lat1 * (Real.pi / 180)) - Real.cos (lat2 * (Real.pi / 180))),
      mul_nonneg (mul_nonneg hc1 hc2)
        (by linarith : (0:ℝ) ≤ 1 + Real.cos (lon2 * (Real.pi / 180) - lon1 * (Real.pi / 180)))]
